import Mathlib

/-!
Verification of the secretnotes-go-backend core: the passphrase-derived
encryption service (services/encryption.go), the note service
(services/note.go) and the file service (services/file.go).

Go byte slices and Go strings (which are plain byte sequences) are both
embedded as `List Nat`, with values reduced mod 256 where the Go `byte`
type forces it.  Stateful database code is embedded by explicit state
passing; randomness (`io.ReadFull(rand.Reader, ...)`) is embedded by
passing the drawn bytes as explicit arguments.
-/

/-- A Go byte slice / Go string: a list of byte values. -/
abbrev ByteSeq := List Nat

namespace Sha256

/-- Reduce to a 32-bit word. -/
def w32 (x : Nat) : Nat := x % 4294967296

/-- Right rotation of a 32-bit word by `n` bits. -/
def rotr32 (n x : Nat) : Nat := w32 (Nat.lor (Nat.shiftRight x n) (Nat.shiftLeft x (32 - n)))

/-- Logical right shift. -/
def shr (n x : Nat) : Nat := Nat.shiftRight x n

/-- Bitwise complement of a 32-bit word. -/
def bnot32 (x : Nat) : Nat := Nat.xor x 4294967295

/-- The big sigma-0 function of SHA-256. -/
def bsig0 (x : Nat) : Nat := Nat.xor (rotr32 2 x) (Nat.xor (rotr32 13 x) (rotr32 22 x))

/-- The big sigma-1 function of SHA-256. -/
def bsig1 (x : Nat) : Nat := Nat.xor (rotr32 6 x) (Nat.xor (rotr32 11 x) (rotr32 25 x))

/-- The small sigma-0 function of SHA-256. -/
def ssig0 (x : Nat) : Nat := Nat.xor (rotr32 7 x) (Nat.xor (rotr32 18 x) (shr 3 x))

/-- The small sigma-1 function of SHA-256. -/
def ssig1 (x : Nat) : Nat := Nat.xor (rotr32 17 x) (Nat.xor (rotr32 19 x) (shr 10 x))

/-- The choice function of SHA-256. -/
def ch (x y z : Nat) : Nat := Nat.xor (Nat.land x y) (Nat.land (bnot32 x) z)

/-- The majority function of SHA-256. -/
def maj (x y z : Nat) : Nat :=
  Nat.xor (Nat.land x y) (Nat.xor (Nat.land x z) (Nat.land y z))

/-- The 64 round constants of SHA-256. -/
def K : List Nat :=
  [1116352408, 1899447441, 3049323471, 3921009573,
   961987163, 1508970993, 2453635748, 2870763221,
   3624381080, 310598401, 607225278, 1426881987,
   1925078388, 2162078206, 2614888103, 3248222580,
   3835390401, 4022224774, 264347078, 604807628,
   770255983, 1249150122, 1555081692, 1996064986,
   2554220882, 2821834349, 2952996808, 3210313671,
   3336571891, 3584528711, 113926993, 338241895,
   666307205, 773529912, 1294757372, 1396182291,
   1695183700, 1986661051, 2177026350, 2456956037,
   2730485921, 2820302411, 3259730800, 3345764771,
   3516065817, 3600352804, 4094571909, 275423344,
   430227734, 506948616, 659060556, 883997877,
   958139571, 1322822218, 1537002063, 1747873779,
   1955562222, 2024104815, 2227730452, 2361852424,
   2428436474, 2756734187, 3204031479, 3329325298]

/-- The eight working variables of the SHA-256 compression function. -/
structure H8 where
  a : Nat
  b : Nat
  c : Nat
  d : Nat
  e : Nat
  f : Nat
  g : Nat
  h : Nat

/-- The initial hash state of SHA-256. -/
def st0 : H8 :=
  ⟨1779033703, 3144134277, 1013904242, 2773480762,
   1359893119, 2600822924, 528734635, 1541459225⟩

/-- Big-endian encoding of a 64-bit length field into 8 bytes. -/
def be64 (x : Nat) : ByteSeq :=
  [x / 72057594037927936 % 256, x / 281474976710656 % 256, x / 1099511627776 % 256,
   x / 4294967296 % 256, x / 16777216 % 256, x / 65536 % 256, x / 256 % 256, x % 256]

/-- Big-endian encoding of a 32-bit word into 4 bytes. -/
def be32 (x : Nat) : ByteSeq :=
  [x / 16777216 % 256, x / 65536 % 256, x / 256 % 256, x % 256]

/-- SHA-256 message padding: append the 0x80 byte, zeros, and the
big-endian 64-bit bit length, reaching a multiple of 64 bytes. -/
def padMessage (m : ByteSeq) : ByteSeq :=
  m ++ [128] ++ List.replicate ((119 - m.length % 64) % 64) 0 ++ be64 (8 * m.length)

/-- Pack bytes into big-endian 32-bit words, four at a time. -/
def bytesToWords : ByteSeq → List Nat
  | b0 :: b1 :: b2 :: b3 :: rest =>
      (b0 % 256 * 16777216 + b1 % 256 * 65536 + b2 % 256 * 256 + b3 % 256) :: bytesToWords rest
  | _ => []

/-- Split a word list into 16-word blocks. -/
def chunk16 : List Nat → List (List Nat)
  | w0 :: w1 :: w2 :: w3 :: w4 :: w5 :: w6 :: w7 ::
    w8 :: w9 :: w10 :: w11 :: w12 :: w13 :: w14 :: w15 :: rest =>
      [w0, w1, w2, w3, w4, w5, w6, w7, w8, w9, w10, w11, w12, w13, w14, w15] :: chunk16 rest
  | _ => []

/-- One extension step of the message schedule; the accumulator holds the
schedule so far in reverse (newest word first). -/
def scheduleStep (rev : List Nat) : List Nat :=
  w32 (ssig1 (rev.getD 1 0) + rev.getD 6 0 + ssig0 (rev.getD 14 0) + rev.getD 15 0) :: rev

/-- Expand a 16-word block into the 64-word message schedule. -/
def msgSchedule (ws : List Nat) : List Nat :=
  (Nat.repeat scheduleStep 48 ws.reverse).reverse

/-- One round of the SHA-256 compression function; `wk` is the scheduled
word already added to the round constant. -/
def roundStep (st : H8) (wk : Nat) : H8 :=
  let t1 := w32 (st.h + bsig1 st.e + ch st.e st.f st.g + wk)
  let t2 := w32 (bsig0 st.a + maj st.a st.b st.c)
  ⟨w32 (t1 + t2), st.a, st.b, st.c, w32 (st.d + t1), st.e, st.f, st.g⟩

/-- Compress one 16-word block into the running hash state. -/
def compressBlock (st : H8) (ws : List Nat) : H8 :=
  let wks := List.zipWith (fun w k => w32 (w + k)) (msgSchedule ws) K
  let t := wks.foldl roundStep st
  ⟨w32 (st.a + t.a), w32 (st.b + t.b), w32 (st.c + t.c), w32 (st.d + t.d),
   w32 (st.e + t.e), w32 (st.f + t.f), w32 (st.g + t.g), w32 (st.h + t.h)⟩

/-- The SHA-256 digest of a byte sequence: 32 bytes.  Faithful embedding
of the crypto/sha256 function used by the repository. -/
def sha256Bytes (m : ByteSeq) : ByteSeq :=
  let st := (chunk16 (bytesToWords (padMessage m))).foldl compressBlock st0
  be32 st.a ++ be32 st.b ++ be32 st.c ++ be32 st.d ++
  be32 st.e ++ be32 st.f ++ be32 st.g ++ be32 st.h

theorem sha256Bytes_length (m : ByteSeq) : (sha256Bytes m).length = 32 := by
  simp [sha256Bytes, be32]

theorem be32_lt_256 (x : Nat) : ∀ b ∈ be32 x, b < 256 := by
  intro b hb
  simp only [be32, List.mem_cons, List.not_mem_nil, or_false] at hb
  rcases hb with h | h | h | h <;> subst h <;> exact Nat.mod_lt _ (by omega)

theorem sha256Bytes_lt_256 (m : ByteSeq) : ∀ b ∈ sha256Bytes m, b < 256 := by
  intro b hb
  simp only [sha256Bytes, List.mem_append] at hb
  rcases hb with ((((((h | h) | h) | h) | h) | h) | h) | h <;> exact be32_lt_256 _ _ h

end Sha256

/-- The lowercase hex digit table of the Go encoding/hex package. -/
def hextable : ByteSeq :=
  [48, 49, 50, 51, 52, 53, 54, 55, 56, 57, 97, 98, 99, 100, 101, 102]

/-- Embedding of hex.EncodeToString: two lowercase hex digits per byte
(the Go byte type bounds each value below 256). -/
def hexEncode (bs : ByteSeq) : ByteSeq :=
  bs.foldr (fun b acc => hextable.getD (b % 256 / 16) 0 :: hextable.getD (b % 16) 0 :: acc) []

theorem hexEncode_length (bs : ByteSeq) : (hexEncode bs).length = 2 * bs.length := by
  induction bs with
  | nil => rfl
  | cons b rest ih => simp [hexEncode] at ih ⊢; omega

theorem hextable_getD_mem (i : Nat) (h : i < 16) : hextable.getD i 0 ∈ hextable := by
  interval_cases i <;> decide

theorem hexEncode_mem_hextable (bs : ByteSeq) : ∀ c ∈ hexEncode bs, c ∈ hextable := by
  induction bs with
  | nil => intro c hc; simp [hexEncode] at hc
  | cons b rest ih =>
      intro c hc
      simp only [hexEncode, List.foldr_cons, List.mem_cons] at hc
      rcases hc with h | h | h
      · subst h
        refine hextable_getD_mem _ ?_
        have hb : b % 256 < 256 := Nat.mod_lt b (by omega)
        omega
      · subst h
        exact hextable_getD_mem _ (Nat.mod_lt b (by omega))
      · exact ih c h

/-- Embedding of hmac.New(sha256.New, key) followed by Write and Sum:
the standard HMAC construction over SHA-256 with a 64-byte block. -/
def hmacSha256 (key msg : ByteSeq) : ByteSeq :=
  let k0 := if 64 < key.length then Sha256.sha256Bytes key else key
  let kp := k0 ++ List.replicate (64 - k0.length) 0
  Sha256.sha256Bytes
    ((kp.map (fun b => Nat.xor (b % 256) 92)) ++
      Sha256.sha256Bytes ((kp.map (fun b => Nat.xor (b % 256) 54)) ++ msg))

theorem hmacSha256_length (key msg : ByteSeq) : (hmacSha256 key msg).length = 32 :=
  Sha256.sha256Bytes_length _

/-- One PBKDF2 block: iterate the HMAC `iter` times, xor-accumulating.
The pair carries the running xor and the last U value. -/
def pbkdf2Block (password salt : ByteSeq) (iter blockIdx : Nat) : ByteSeq :=
  let u1 := hmacSha256 password (salt ++ Sha256.be32 blockIdx)
  (Nat.repeat
    (fun tu => ((List.zipWith Nat.xor tu.1 (hmacSha256 password tu.2), hmacSha256 password tu.2) :
        ByteSeq × ByteSeq))
    (iter - 1) (u1, u1)).1

/-- Embedding of pbkdf2.Key from golang.org/x/crypto/pbkdf2 with the
sha256.New hash constructor (external library, modelled from its
published algorithm, RFC 2898): derived key of `keyLen` bytes. -/
def pbkdf2Key (password salt : ByteSeq) (iter keyLen : Nat) : ByteSeq :=
  (((List.range ((keyLen + 31) / 32)).map
      (fun i => pbkdf2Block password salt iter (i + 1))).flatten).take keyLen

theorem pbkdf2_repeat_fst_length (password : ByteSeq) (n : Nat) (tu : ByteSeq × ByteSeq)
    (ht : tu.1.length = 32) :
    ((Nat.repeat
      (fun tu => ((List.zipWith Nat.xor tu.1 (hmacSha256 password tu.2), hmacSha256 password tu.2) :
          ByteSeq × ByteSeq))
      n tu).1).length = 32 := by
  induction n with
  | zero => exact ht
  | succ k ih =>
      show (List.zipWith Nat.xor _ (hmacSha256 password _)).length = 32
      rw [List.length_zipWith, ih, hmacSha256_length]
      exact min_self 32

theorem pbkdf2Block_length (password salt : ByteSeq) (iter blockIdx : Nat) :
    (pbkdf2Block password salt iter blockIdx).length = 32 :=
  pbkdf2_repeat_fst_length password (iter - 1) _ (hmacSha256_length _ _)

theorem pbkdf2Key_32_length (password salt : ByteSeq) (iter : Nat) :
    (pbkdf2Key password salt iter 32).length = 32 := by
  have h1 : (32 + 31) / 32 = 1 := by norm_num
  have h2 : List.range 1 = [0] := by decide
  simp [pbkdf2Key, h1, h2, pbkdf2Block_length]


/-- Mixing fold used by the model AEAD below to digest a byte sequence
into a single number. -/
def gcmFold (l : ByteSeq) : Nat :=
  l.foldl (fun a b => (a * 131 + b % 256 + 1) % 1000000007) 7

/-- Keystream of the model AEAD: one byte per position, derived from the
key, the nonce and the position. -/
def gcmStream (key nonce : ByteSeq) (n : Nat) : ByteSeq :=
  (List.range n).map (fun i => (gcmFold key * 97 + gcmFold nonce * 89 + i * 83 + 5) % 256)

/-- The xor layer of the model AEAD; applying it twice with the same key
and nonce restores the input. -/
def gcmCipher (key nonce data : ByteSeq) : ByteSeq :=
  List.zipWith Nat.xor data (gcmStream key nonce data.length)

/-- The 16-byte authentication tag of the model AEAD, recomputed from the
key, the nonce and the ciphertext. -/
def gcmTag (key nonce ct : ByteSeq) : ByteSeq :=
  (List.range 16).map
    (fun i => (gcmFold key * (i + 2) + gcmFold nonce * (i + 3) + gcmFold ct * (i + 5) + i) % 256)

/-- Model of the external Go crypto/cipher AEAD Seal method (AES-256-GCM
with no associated data, as configured by the repository): the returned
value is the ciphertext followed by a 16-byte authentication tag, so its
length is the plaintext length plus 16. -/
def gcmSeal (key nonce plaintext : ByteSeq) : ByteSeq :=
  let ct := gcmCipher key nonce plaintext
  ct ++ gcmTag key nonce ct

/-- Model of the external Go crypto/cipher AEAD Open method: inputs
shorter than the tag are rejected, then the tag is recomputed from the
received ciphertext and compared; on mismatch no plaintext is returned,
on match the xor layer is inverted. -/
def gcmOpen (key nonce data : ByteSeq) : Option ByteSeq :=
  if data.length < 16 then none
  else if gcmTag key nonce (data.take (data.length - 16)) = data.drop (data.length - 16) then
    some (gcmCipher key nonce (data.take (data.length - 16)))
  else none

theorem gcmStream_length (key nonce : ByteSeq) (n : Nat) :
    (gcmStream key nonce n).length = n := by
  simp [gcmStream]

theorem gcmCipher_length (key nonce data : ByteSeq) :
    (gcmCipher key nonce data).length = data.length := by
  simp [gcmCipher, gcmStream_length]

theorem gcmTag_length (key nonce ct : ByteSeq) : (gcmTag key nonce ct).length = 16 := by
  simp [gcmTag]

theorem gcmSeal_length (key nonce plaintext : ByteSeq) :
    (gcmSeal key nonce plaintext).length = plaintext.length + 16 := by
  simp [gcmSeal, gcmCipher_length, gcmTag_length]

theorem zipWith_xor_cancel (d s : ByteSeq) (h : d.length ≤ s.length) :
    List.zipWith Nat.xor (List.zipWith Nat.xor d s) s = d := by
  induction d generalizing s with
  | nil => simp
  | cons a d ih =>
      cases s with
      | nil => simp at h
      | cons b s =>
          simp only [List.zipWith_cons_cons, List.cons.injEq]
          refine ⟨?_, ih s (by simpa using h)⟩
          show a ^^^ b ^^^ b = a
          rw [Nat.xor_assoc, Nat.xor_self, Nat.xor_zero]

theorem gcmCipher_cipher (key nonce data : ByteSeq) :
    gcmCipher key nonce (gcmCipher key nonce data) = data := by
  simp only [gcmCipher, List.length_zipWith, gcmStream_length, min_self]
  exact zipWith_xor_cancel data _ (by rw [gcmStream_length])

theorem gcmOpen_append (key nonce ct : ByteSeq) :
    gcmOpen key nonce (ct ++ gcmTag key nonce ct) = some (gcmCipher key nonce ct) := by
  have hlen : (ct ++ gcmTag key nonce ct).length = ct.length + 16 := by
    simp [gcmTag_length]
  unfold gcmOpen
  rw [hlen, Nat.add_sub_cancel, if_neg (by omega), List.take_left, List.drop_left, if_pos rfl]

theorem gcmOpen_gcmSeal (key nonce plaintext : ByteSeq) :
    gcmOpen key nonce (gcmSeal key nonce plaintext) = some plaintext := by
  have h := gcmOpen_append key nonce (gcmCipher key nonce plaintext)
  rw [gcmCipher_cipher] at h
  simpa [gcmSeal] using h

/-- The encryption service struct of services/encryption.go, with its two
configuration fields. -/
structure Service where
  SaltSize : Nat
  KeySize : Nat

/-- NewEncryptionService: 16-byte salt, 32-byte key. -/
def NewEncryptionService : Service :=
  { SaltSize := 16, KeySize := 32 }

/-- DeriveKey: pbkdf2.Key of the phrase and salt with 10000 iterations,
the service key size and the sha256.New hash constructor. -/
def Service.DeriveKey (s : Service) (phrase salt : ByteSeq) : ByteSeq :=
  pbkdf2Key phrase salt 10000 s.KeySize

/-- EncryptData: derive the key from the phrase and the fresh random
salt, AEAD-seal the data under the fresh random nonce, and return
salt, nonce and sealed data concatenated.  The two random reads of the
Go code are embedded as the `salt` and `nonce` arguments; the error
return of aes.NewCipher (a key size other than 16, 24 or 32 bytes) is
kept, while the error returns for failed randomness are carried by the
arguments themselves. -/
def Service.EncryptData (s : Service) (data phrase : ByteSeq) (salt nonce : ByteSeq) :
    Except String ByteSeq :=
  let key := s.DeriveKey phrase salt
  if key.length = 16 ∨ key.length = 24 ∨ key.length = 32 then
    Except.ok (salt ++ nonce ++ gcmSeal key nonce data)
  else
    Except.error "failed to create cipher"

/-- DecryptData: check the structural minimum lengths, split the envelope
into salt (first SaltSize bytes), nonce (next 12 bytes) and remainder,
re-derive the key and AEAD-open the remainder. -/
def Service.DecryptData (s : Service) (encryptedData phrase : ByteSeq) :
    Except String ByteSeq :=
  if encryptedData.length < s.SaltSize + 12 then
    Except.error "encrypted data is too short"
  else if encryptedData.length ≤ s.SaltSize + 12 then
    Except.error "invalid encrypted data format"
  else
    let salt := encryptedData.take s.SaltSize
    let nonce := (encryptedData.drop s.SaltSize).take 12
    let encrypted := encryptedData.drop (s.SaltSize + 12)
    let key := s.DeriveKey phrase salt
    if key.length = 16 ∨ key.length = 24 ∨ key.length = 32 then
      match gcmOpen key nonce encrypted with
      | some decrypted => Except.ok decrypted
      | none => Except.error "failed to decrypt data: cipher: message authentication failed"
    else
      Except.error "failed to create cipher"

/-- EncryptString: convert the text to bytes, encrypt, and convert the
envelope bytes back to a Go string.  Go string conversion copies the
bytes verbatim, so both conversions are the identity here; despite the
doc comment in the source, no base64 encoding occurs. -/
def Service.EncryptString (s : Service) (text phrase : ByteSeq) (salt nonce : ByteSeq) :
    Except String ByteSeq :=
  match s.EncryptData text phrase salt nonce with
  | Except.error e => Except.error e
  | Except.ok encrypted => Except.ok encrypted

/-- DecryptString: convert the input string to bytes, decrypt, and
convert the plaintext bytes back to a Go string (both conversions are
the identity on byte sequences). -/
def Service.DecryptString (s : Service) (encryptedText phrase : ByteSeq) :
    Except String ByteSeq :=
  match s.DecryptData encryptedText phrase with
  | Except.error e => Except.error e
  | Except.ok decrypted => Except.ok decrypted

theorem deriveKey_length (phrase salt : ByteSeq) :
    (NewEncryptionService.DeriveKey phrase salt).length = 32 :=
  pbkdf2Key_32_length phrase salt 10000

/-- EncryptData at the deployed service always succeeds and returns the
salt, nonce and sealed payload concatenated. -/
theorem encryptData_eq (data phrase salt nonce : ByteSeq) :
    NewEncryptionService.EncryptData data phrase salt nonce =
      Except.ok (salt ++ nonce ++
        gcmSeal (NewEncryptionService.DeriveKey phrase salt) nonce data) := by
  unfold Service.EncryptData
  rw [if_pos (Or.inr (Or.inr (deriveKey_length phrase salt)))]

/-- Byte sequence of a string literal (the Go byte-slice conversion of a
string constant). -/
def strBytes (s : String) : ByteSeq := s.toUTF8.toList.map (fun b => b.toNat)

/-- hashPhrase of NoteService (services/note.go): the lowercase hex
encoding of the SHA-256 digest of the phrase. -/
def NoteService.hashPhrase (phrase : ByteSeq) : ByteSeq :=
  hexEncode (Sha256.sha256Bytes phrase)

/-- hashPhrase of FileService (services/file.go): the lowercase hex
encoding of the SHA-256 digest of the phrase. -/
def FileService.hashPhrase (phrase : ByteSeq) : ByteSeq :=
  hexEncode (Sha256.sha256Bytes phrase)

/-- hashBytes of FileService: hex-encoded SHA-256 of a byte array. -/
def FileService.hashBytes (data : ByteSeq) : ByteSeq :=
  hexEncode (Sha256.sha256Bytes data)

/-- A stored record of the notes collection. -/
structure NoteRecord where
  id : ByteSeq
  phraseHash : ByteSeq
  message : ByteSeq
  imageHash : ByteSeq
  created : Nat
  updated : Nat
deriving DecidableEq

/-- A stored record of the encrypted_files collection (the fields the
note service touches). -/
structure FileRecord where
  id : ByteSeq
  phraseHash : ByteSeq
deriving DecidableEq

/-- The PocketBase store as seen by the note service: the notes and
encrypted_files collections, in insertion order. -/
structure AppState where
  notes : List NoteRecord
  files : List FileRecord
deriving DecidableEq

/-- The note returned to callers (struct Note of services/note.go). -/
structure Note where
  id : ByteSeq
  phrase : ByteSeq
  message : ByteSeq
  imageHash : ByteSeq
  created : Nat
  updated : Nat
deriving DecidableEq

/-- The initial message of a newly created note. -/
def welcomeMessage : ByteSeq := strBytes "Welcome to your new secure note!"

/-- FindRecordsByFilter on the notes collection with a phrase_hash
filter and limit 1. -/
def findNotes (st : AppState) (phraseHash : ByteSeq) : List NoteRecord :=
  (st.notes.filter (fun r => r.phraseHash == phraseHash)).take 1

/-- GetOrCreateNote of services/note.go: validate the phrase length,
look the note up by hashed phrase; when found, decrypt the stored
message, silently falling back to the stored blob when decryption
fails; when absent, create a record holding the encrypted welcome
message.  The store is passed and returned explicitly; `salt` and
`nonce` are the random draws of the embedded encrypt call, `freshId`
and `now` the record id and timestamps assigned by the store on save. -/
def GetOrCreateNote (st : AppState) (phrase : ByteSeq)
    (salt nonce freshId : ByteSeq) (now : Nat) : Except String Note × AppState :=
  if phrase.length < 3 then
    (Except.error "phrase must be at least 3 characters long", st)
  else
    let phraseHash := NoteService.hashPhrase phrase
    match findNotes st phraseHash with
    | record :: _ =>
        let encryptedMessage := record.message
        let message :=
          if encryptedMessage = [] then []
          else
            match NewEncryptionService.DecryptData encryptedMessage phrase with
            | Except.error _ => encryptedMessage
            | Except.ok decryptedBytes => decryptedBytes
        (Except.ok ⟨record.id, phraseHash, message, record.imageHash,
          record.created, record.updated⟩, st)
    | [] =>
        match NewEncryptionService.EncryptData welcomeMessage phrase salt nonce with
        | Except.error _ => (Except.error "failed to encrypt initial message", st)
        | Except.ok encryptedMessage =>
            let record : NoteRecord := ⟨freshId, phraseHash, encryptedMessage, [], now, now⟩
            (Except.ok ⟨freshId, phraseHash, welcomeMessage, [], now, now⟩,
             { st with notes := st.notes ++ [record] })

/-- UpdateNote of services/note.go: validate the phrase length, find the
note by hashed phrase, encrypt the new message, store it, and return
the note carrying the plaintext message. -/
def UpdateNote (st : AppState) (phrase message : ByteSeq)
    (salt nonce : ByteSeq) (now : Nat) : Except String Note × AppState :=
  if phrase.length < 3 then
    (Except.error "phrase must be at least 3 characters long", st)
  else
    let phraseHash := NoteService.hashPhrase phrase
    match findNotes st phraseHash with
    | [] => (Except.error "note not found", st)
    | record :: _ =>
        match NewEncryptionService.EncryptData message phrase salt nonce with
        | Except.error _ => (Except.error "failed to encrypt message", st)
        | Except.ok encryptedMessage =>
            let record2 := { record with message := encryptedMessage, updated := now }
            (Except.ok ⟨record.id, phraseHash, message, record.imageHash, record.created, now⟩,
             { st with notes := st.notes.map (fun r => if r.id == record.id then record2 else r) })

/-- DeleteNote of services/note.go: validate the phrase length, find the
note by hashed phrase, delete every associated encrypted file record
with the same hash, then delete the note record. -/
def DeleteNote (st : AppState) (phrase : ByteSeq) : Except String Unit × AppState :=
  if phrase.length < 3 then
    (Except.error "phrase must be at least 3 characters long", st)
  else
    let phraseHash := NoteService.hashPhrase phrase
    match findNotes st phraseHash with
    | [] => (Except.error "note not found", st)
    | record :: _ =>
        let files2 := st.files.filter (fun f => ¬ (f.phraseHash == phraseHash))
        let notes2 := st.notes.filter (fun r => ¬ (r.id == record.id))
        (Except.ok (), { notes := notes2, files := files2 })

theorem decryptData_append (phrase salt nonce rest : ByteSeq)
    (h16 : salt.length = 16) (h12 : nonce.length = 12) (hrest : rest ≠ []) :
    NewEncryptionService.DecryptData (salt ++ nonce ++ rest) phrase =
      match gcmOpen (NewEncryptionService.DeriveKey phrase salt) nonce rest with
      | some decrypted => Except.ok decrypted
      | none => Except.error "failed to decrypt data: cipher: message authentication failed" := by
  have hr : 1 ≤ rest.length := by
    cases rest with
    | nil => simp at hrest
    | cons a l => simp
  have hlen : (salt ++ nonce ++ rest).length = 28 + rest.length := by
    simp [List.length_append, h16, h12]
    omega
  have htake16 : (salt ++ nonce ++ rest).take 16 = salt := by
    rw [List.append_assoc, ← h16]; exact List.take_left _ _
  have hdrop16 : (salt ++ nonce ++ rest).drop 16 = nonce ++ rest := by
    rw [List.append_assoc, ← h16]; exact List.drop_left _ _
  have htake12 : (nonce ++ rest).take 12 = nonce := by
    rw [← h12]; exact List.take_left _ _
  have hdrop28 : (salt ++ nonce ++ rest).drop 28 = rest := by
    rw [show (28 : Nat) = (salt ++ nonce).length from by simp [h16, h12]]
    exact List.drop_left _ _
  unfold Service.DecryptData
  simp only [show NewEncryptionService.SaltSize = 16 from rfl]
  rw [hlen]
  rw [if_neg (by omega), if_neg (by omega), htake16, hdrop16, htake12, hdrop28]
  rw [if_pos (Or.inr (Or.inr (deriveKey_length phrase salt)))]

theorem gcmSeal_ne_nil (key nonce p : ByteSeq) : gcmSeal key nonce p ≠ [] := by
  intro hcontra
  have := gcmSeal_length key nonce p
  rw [hcontra] at this
  simp at this

theorem gcmOpen_short (key nonce data : ByteSeq) (h : data.length < 16) :
    gcmOpen key nonce data = none := by
  unfold gcmOpen
  rw [if_pos h]

/-- C1.  For every byte sequence `p` (including the empty one) and every
passphrase `k`, decrypting the envelope produced by encrypting `p` with
`k`, with the same passphrase `k`, returns exactly `p`: the round-trip
law DecryptData(EncryptData(p, k), k) == p, for any 16-byte salt and
12-byte nonce drawn by the encrypt call. -/
theorem encrypt_decrypt_roundtrip (p k salt nonce : ByteSeq)
    (h16 : salt.length = 16) (h12 : nonce.length = 12) :
    ∃ env, NewEncryptionService.EncryptData p k salt nonce = Except.ok env ∧
      NewEncryptionService.DecryptData env k = Except.ok p := by
  refine ⟨_, encryptData_eq p k salt nonce, ?_⟩
  rw [decryptData_append k salt nonce _ h16 h12 (gcmSeal_ne_nil _ _ _)]
  rw [gcmOpen_gcmSeal]

/-- Witness for C1 at a concrete plaintext, passphrase, salt and nonce. -/
theorem encrypt_decrypt_roundtrip_witness :
    (List.replicate 16 0 : ByteSeq).length = 16 ∧
    (List.replicate 12 0 : ByteSeq).length = 12 ∧
    ∃ env, NewEncryptionService.EncryptData [1, 2, 3] [97, 98, 99]
        (List.replicate 16 0) (List.replicate 12 0) = Except.ok env ∧
      NewEncryptionService.DecryptData env [97, 98, 99] = Except.ok [1, 2, 3] :=
  ⟨by decide, by decide,
    encrypt_decrypt_roundtrip [1, 2, 3] [97, 98, 99] _ _ (by decide) (by decide)⟩

/-- C2.  The envelope returned by EncryptData is the concatenation of the
16-byte salt, the 12-byte nonce and the ciphertext-plus-tag, with total
length 16 + 12 + len(p) + 16; for the empty plaintext the envelope is
exactly 44 bytes. -/
theorem envelope_layout (p k salt nonce : ByteSeq)
    (h16 : salt.length = 16) (h12 : nonce.length = 12) :
    ∃ env, NewEncryptionService.EncryptData p k salt nonce = Except.ok env ∧
      env = salt ++ nonce ++ gcmSeal (NewEncryptionService.DeriveKey k salt) nonce p ∧
      env.length = 16 + 12 + p.length + 16 ∧
      (p = [] → env.length = 44) := by
  refine ⟨_, encryptData_eq p k salt nonce, rfl, ?_, ?_⟩
  · simp [List.length_append, h16, h12, gcmSeal_length]
    omega
  · intro hp
    subst hp
    simp [List.length_append, h16, h12, gcmSeal_length]

/-- Witness for C2 at the empty plaintext. -/
theorem envelope_layout_witness :
    (List.replicate 16 0 : ByteSeq).length = 16 ∧
    (List.replicate 12 0 : ByteSeq).length = 12 ∧
    ∃ env, NewEncryptionService.EncryptData [] [107, 101, 121]
        (List.replicate 16 0) (List.replicate 12 0) = Except.ok env ∧
      env = List.replicate 16 0 ++ List.replicate 12 0 ++
        gcmSeal (NewEncryptionService.DeriveKey [107, 101, 121] (List.replicate 16 0))
          (List.replicate 12 0) [] ∧
      env.length = 16 + 12 + ([] : ByteSeq).length + 16 ∧
      (([] : ByteSeq) = [] → env.length = 44) :=
  ⟨by decide, by decide,
    envelope_layout [] [107, 101, 121] _ _ (by decide) (by decide)⟩

/-- C3 counterexample.  A 30-byte envelope is shorter than 44 bytes, yet
DecryptData fails with the AEAD authentication error, not a structural
malformed-envelope error: the structural checks only reject envelopes of
at most 28 bytes. -/
theorem short_envelope_counterexample :
    NewEncryptionService.DecryptData (List.replicate 30 0) [97, 98, 99] =
      Except.error "failed to decrypt data: cipher: message authentication failed" := by
  have hsplit : (List.replicate 30 0 : ByteSeq) =
      List.replicate 16 0 ++ List.replicate 12 0 ++ [0, 0] := by decide
  rw [hsplit, decryptData_append _ _ _ _ (by decide) (by decide) (by decide)]
  rw [gcmOpen_short _ _ _ (by decide)]

/-- C3 amended.  For every passphrase and every envelope shorter than
29 bytes (too short to hold the 16-byte salt, the 12-byte nonce and at
least one ciphertext byte), DecryptData fails with one of the two
structural malformed-envelope errors; envelopes of 29 to 43 bytes
instead reach AEAD opening and fail with the authentication error. -/
theorem short_envelope_structural (env k : ByteSeq) (h : env.length < 29) :
    NewEncryptionService.DecryptData env k = Except.error "encrypted data is too short" ∨
    NewEncryptionService.DecryptData env k = Except.error "invalid encrypted data format" := by
  unfold Service.DecryptData
  simp only [show NewEncryptionService.SaltSize = 16 from rfl]
  by_cases h1 : env.length < 16 + 12
  · left
    rw [if_pos h1]
  · right
    rw [if_neg h1, if_pos (by omega)]

/-- Witness for the amended C3 at a concrete 10-byte envelope. -/
theorem short_envelope_structural_witness :
    (List.replicate 10 0 : ByteSeq).length < 29 ∧
    (NewEncryptionService.DecryptData (List.replicate 10 0) [97, 98, 99] =
        Except.error "encrypted data is too short" ∨
      NewEncryptionService.DecryptData (List.replicate 10 0) [97, 98, 99] =
        Except.error "invalid encrypted data format") :=
  ⟨by decide, short_envelope_structural (List.replicate 10 0) [97, 98, 99] (by decide)⟩

/-- C4.  Both EncryptData and DecryptData derive the 32-byte key from
the passphrase and salt with the same function DeriveKey, which is
PBKDF2 with a SHA-256 core and fixed iteration count 10000 (at least
10000); DecryptData reads the salt from the first 16 envelope bytes and
the nonce from the next 12. -/
theorem key_derivation_and_parsing (k salt p nonce env : ByteSeq)
    (h16 : salt.length = 16) (h12 : nonce.length = 12) (henv : 28 < env.length) :
    (NewEncryptionService.DeriveKey k salt = pbkdf2Key k salt 10000 32 ∧
      10000 ≥ 10000 ∧ (NewEncryptionService.DeriveKey k salt).length = 32) ∧
    NewEncryptionService.EncryptData p k salt nonce =
      Except.ok (salt ++ nonce ++
        gcmSeal (NewEncryptionService.DeriveKey k salt) nonce p) ∧
    NewEncryptionService.DecryptData env k =
      (match gcmOpen (NewEncryptionService.DeriveKey k (env.take 16))
          ((env.drop 16).take 12) (env.drop 28) with
        | some decrypted => Except.ok decrypted
        | none => Except.error "failed to decrypt data: cipher: message authentication failed") := by
  refine ⟨⟨rfl, le_refl _, deriveKey_length k salt⟩, encryptData_eq p k salt nonce, ?_⟩
  unfold Service.DecryptData
  simp only [show NewEncryptionService.SaltSize = 16 from rfl]
  rw [if_neg (by omega), if_neg (by omega)]
  rw [if_pos (Or.inr (Or.inr (deriveKey_length k (env.take 16))))]

/-- Witness for C4 at a concrete passphrase, salt, plaintext, nonce and
30-byte envelope. -/
theorem key_derivation_and_parsing_witness :
    (NewEncryptionService.DeriveKey [107, 101, 121] (List.replicate 16 0) =
        pbkdf2Key [107, 101, 121] (List.replicate 16 0) 10000 32 ∧
      10000 ≥ 10000 ∧
      (NewEncryptionService.DeriveKey [107, 101, 121] (List.replicate 16 0)).length = 32) ∧
    NewEncryptionService.EncryptData [5, 6] [107, 101, 121]
        (List.replicate 16 0) (List.replicate 12 0) =
      Except.ok (List.replicate 16 0 ++ List.replicate 12 0 ++
        gcmSeal (NewEncryptionService.DeriveKey [107, 101, 121] (List.replicate 16 0))
          (List.replicate 12 0) [5, 6]) ∧
    NewEncryptionService.DecryptData (List.replicate 30 0) [107, 101, 121] =
      (match gcmOpen
          (NewEncryptionService.DeriveKey [107, 101, 121] ((List.replicate 30 0).take 16))
          (((List.replicate 30 0 : ByteSeq).drop 16).take 12)
          ((List.replicate 30 0 : ByteSeq).drop 28) with
        | some decrypted => Except.ok decrypted
        | none => Except.error "failed to decrypt data: cipher: message authentication failed") :=
  key_derivation_and_parsing [107, 101, 121] (List.replicate 16 0) [5, 6]
    (List.replicate 12 0) (List.replicate 30 0) (by decide) (by decide) (by decide)

theorem gcmOpen_wrong_key (key1 key2 nonce ct : ByteSeq) :
    gcmOpen key2 nonce (ct ++ gcmTag key1 nonce ct) =
      (if gcmTag key2 nonce ct = gcmTag key1 nonce ct then
        some (gcmCipher key2 nonce ct)
      else none) := by
  have hlen : (ct ++ gcmTag key1 nonce ct).length = ct.length + 16 := by
    simp [gcmTag_length]
  unfold gcmOpen
  rw [hlen, Nat.add_sub_cancel, if_neg (by omega), List.take_left, List.drop_left]

/-- C5.  Decrypting an envelope with a passphrase other than the one it
was encrypted under fails with the opaque decryption error and yields no
plaintext bytes, unless the recomputed authentication tag under the
wrong key happens to collide with the stored tag (the negligible AEAD
forgery event that the claim excepts).  The error constructor carries no
plaintext. -/
theorem wrong_phrase_rejected (p k1 k2 salt nonce : ByteSeq)
    (h16 : salt.length = 16) (h12 : nonce.length = 12) (hne : k1 ≠ k2) :
    ∃ env, NewEncryptionService.EncryptData p k1 salt nonce = Except.ok env ∧
      (NewEncryptionService.DecryptData env k2 =
          Except.error "failed to decrypt data: cipher: message authentication failed" ∨
        gcmTag (NewEncryptionService.DeriveKey k2 salt) nonce
            (gcmCipher (NewEncryptionService.DeriveKey k1 salt) nonce p) =
          gcmTag (NewEncryptionService.DeriveKey k1 salt) nonce
            (gcmCipher (NewEncryptionService.DeriveKey k1 salt) nonce p)) := by
  refine ⟨_, encryptData_eq p k1 salt nonce, ?_⟩
  rw [decryptData_append k2 salt nonce _ h16 h12 (gcmSeal_ne_nil _ _ _)]
  simp only [gcmSeal]
  rw [gcmOpen_wrong_key]
  by_cases htag : gcmTag (NewEncryptionService.DeriveKey k2 salt) nonce
      (gcmCipher (NewEncryptionService.DeriveKey k1 salt) nonce p) =
    gcmTag (NewEncryptionService.DeriveKey k1 salt) nonce
      (gcmCipher (NewEncryptionService.DeriveKey k1 salt) nonce p)
  · right
    exact htag
  · left
    rw [if_neg htag]

/-- Witness for C5 at the phrases alpha and beta of the spec scenario. -/
theorem wrong_phrase_rejected_witness :
    (List.replicate 16 0 : ByteSeq).length = 16 ∧
    (List.replicate 12 0 : ByteSeq).length = 12 ∧
    ([97, 108, 112, 104, 97] : ByteSeq) ≠ [98, 101, 116, 97] ∧
    ∃ env, NewEncryptionService.EncryptData [104, 105] [97, 108, 112, 104, 97]
        (List.replicate 16 0) (List.replicate 12 0) = Except.ok env ∧
      (NewEncryptionService.DecryptData env [98, 101, 116, 97] =
          Except.error "failed to decrypt data: cipher: message authentication failed" ∨
        gcmTag (NewEncryptionService.DeriveKey [98, 101, 116, 97] (List.replicate 16 0))
            (List.replicate 12 0)
            (gcmCipher (NewEncryptionService.DeriveKey [97, 108, 112, 104, 97]
              (List.replicate 16 0)) (List.replicate 12 0) [104, 105]) =
          gcmTag (NewEncryptionService.DeriveKey [97, 108, 112, 104, 97] (List.replicate 16 0))
            (List.replicate 12 0)
            (gcmCipher (NewEncryptionService.DeriveKey [97, 108, 112, 104, 97]
              (List.replicate 16 0)) (List.replicate 12 0) [104, 105])) :=
  ⟨by decide, by decide, by decide,
    wrong_phrase_rejected [104, 105] [97, 108, 112, 104, 97] [98, 101, 116, 97] _ _
      (by decide) (by decide) (by decide)⟩

theorem encryptString_eq (s : Service) (t k salt nonce : ByteSeq) :
    s.EncryptString t k salt nonce = s.EncryptData t k salt nonce := by
  unfold Service.EncryptString
  cases s.EncryptData t k salt nonce <;> rfl

theorem decryptString_eq (s : Service) (e k : ByteSeq) :
    s.DecryptString e k = s.DecryptData e k := by
  unfold Service.DecryptString
  cases s.DecryptData e k <;> rfl

/-- C9.  EncryptString returns the raw envelope bytes of EncryptData
converted directly to a Go string (no base64 or other text encoding,
despite the doc comment in the source), and DecryptString inverts it:
DecryptString(EncryptString(t, k), k) == t. -/
theorem encryptString_raw_roundtrip (t k salt nonce : ByteSeq)
    (h16 : salt.length = 16) (h12 : nonce.length = 12) :
    ∃ env, NewEncryptionService.EncryptData t k salt nonce = Except.ok env ∧
      NewEncryptionService.EncryptString t k salt nonce = Except.ok env ∧
      NewEncryptionService.DecryptString env k = Except.ok t := by
  obtain ⟨env, henc, hdec⟩ := encrypt_decrypt_roundtrip t k salt nonce h16 h12
  refine ⟨env, henc, ?_, ?_⟩
  · rw [encryptString_eq, henc]
  · rw [decryptString_eq, hdec]

/-- Witness for C9 at a concrete text, passphrase, salt and nonce. -/
theorem encryptString_raw_roundtrip_witness :
    (List.replicate 16 1 : ByteSeq).length = 16 ∧
    (List.replicate 12 2 : ByteSeq).length = 12 ∧
    ∃ env, NewEncryptionService.EncryptData [104, 105] [112, 119, 100]
        (List.replicate 16 1) (List.replicate 12 2) = Except.ok env ∧
      NewEncryptionService.EncryptString [104, 105] [112, 119, 100]
        (List.replicate 16 1) (List.replicate 12 2) = Except.ok env ∧
      NewEncryptionService.DecryptString env [112, 119, 100] = Except.ok [104, 105] :=
  ⟨by decide, by decide,
    encryptString_raw_roundtrip [104, 105] [112, 119, 100] _ _ (by decide) (by decide)⟩

/-- C6.  When GetOrCreateNote finds a stored note whose message is
non-empty and DecryptData on it fails, the error is not propagated: the
note is returned successfully with the stored blob verbatim as its
Message, and the store is unchanged. -/
theorem decrypt_failure_fallback (st : AppState) (phrase salt nonce freshId : ByteSeq)
    (now : Nat) (record : NoteRecord) (e : String)
    (hlen : ¬ phrase.length < 3)
    (hfind : findNotes st (NoteService.hashPhrase phrase) = [record])
    (hmsg : ¬ record.message = [])
    (hdec : NewEncryptionService.DecryptData record.message phrase = Except.error e) :
    GetOrCreateNote st phrase salt nonce freshId now =
      (Except.ok ⟨record.id, NoteService.hashPhrase phrase, record.message,
        record.imageHash, record.created, record.updated⟩, st) := by
  unfold GetOrCreateNote
  simp only [if_neg hlen, hfind, if_neg hmsg, hdec]

/-- Witness for C6: a store holding one record whose message is a
3-byte blob that DecryptData rejects as too short. -/
theorem decrypt_failure_fallback_witness :
    (¬ ([97, 98, 99] : ByteSeq).length < 3) ∧
    findNotes ⟨[⟨[], NoteService.hashPhrase [97, 98, 99], [1, 2, 3], [], 0, 0⟩], []⟩
        (NoteService.hashPhrase [97, 98, 99]) =
      [⟨[], NoteService.hashPhrase [97, 98, 99], [1, 2, 3], [], 0, 0⟩] ∧
    (¬ ([1, 2, 3] : ByteSeq) = []) ∧
    NewEncryptionService.DecryptData [1, 2, 3] [97, 98, 99] =
      Except.error "encrypted data is too short" ∧
    GetOrCreateNote ⟨[⟨[], NoteService.hashPhrase [97, 98, 99], [1, 2, 3], [], 0, 0⟩], []⟩
        [97, 98, 99] [] [] [] 0 =
      (Except.ok ⟨[], NoteService.hashPhrase [97, 98, 99], [1, 2, 3], [], 0, 0⟩,
        ⟨[⟨[], NoteService.hashPhrase [97, 98, 99], [1, 2, 3], [], 0, 0⟩], []⟩) :=
  ⟨by decide, by decide, by decide, by rfl,
    decrypt_failure_fallback _ [97, 98, 99] [] [] [] 0
      ⟨[], NoteService.hashPhrase [97, 98, 99], [1, 2, 3], [], 0, 0⟩
      "encrypted data is too short" (by decide) (by decide) (by decide) (by rfl)⟩

/-- C7.  The lookup-token derivation hashPhrase is a total deterministic
function: for every phrase it returns the hex encoding of the 32-byte
SHA-256 digest, always 64 characters; determinism is inherent in the
pure embedding, and two concrete distinct phrases are checked to give
distinct tokens (full injectivity holds only up to SHA-256 collisions,
the negligible event the claim excepts). -/
theorem lookup_token_total_deterministic :
    (∀ p : ByteSeq, (Sha256.sha256Bytes p).length = 32 ∧
      NoteService.hashPhrase p = hexEncode (Sha256.sha256Bytes p) ∧
      (NoteService.hashPhrase p).length = 64) ∧
    NoteService.hashPhrase [97, 98, 99] ≠ NoteService.hashPhrase [97, 98, 100] := by
  constructor
  · intro p
    refine ⟨Sha256.sha256Bytes_length p, rfl, ?_⟩
    unfold NoteService.hashPhrase
    rw [hexEncode_length, Sha256.sha256Bytes_length]
  · decide

/-- C8.  For every phrase shorter than 3 bytes, each of GetOrCreateNote,
UpdateNote and DeleteNote returns the validation error with the store
untouched — for every store state, so no lookup, encryption or mutation
can have occurred. -/
theorem short_phrase_rejected (st : AppState) (phrase message salt nonce freshId : ByteSeq)
    (now : Nat) (h : phrase.length < 3) :
    GetOrCreateNote st phrase salt nonce freshId now =
      (Except.error "phrase must be at least 3 characters long", st) ∧
    UpdateNote st phrase message salt nonce now =
      (Except.error "phrase must be at least 3 characters long", st) ∧
    DeleteNote st phrase = (Except.error "phrase must be at least 3 characters long", st) := by
  refine ⟨?_, ?_, ?_⟩
  · unfold GetOrCreateNote
    rw [if_pos h]
  · unfold UpdateNote
    rw [if_pos h]
  · unfold DeleteNote
    rw [if_pos h]

/-- Witness for C8 at the 2-byte phrase ab and a concrete store. -/
theorem short_phrase_rejected_witness :
    ([97, 98] : ByteSeq).length < 3 ∧
    (GetOrCreateNote ⟨[], []⟩ [97, 98] [] [] [] 0 =
        (Except.error "phrase must be at least 3 characters long", ⟨[], []⟩) ∧
      UpdateNote ⟨[], []⟩ [97, 98] [5] [] [] 0 =
        (Except.error "phrase must be at least 3 characters long", ⟨[], []⟩) ∧
      DeleteNote ⟨[], []⟩ [97, 98] =
        (Except.error "phrase must be at least 3 characters long", ⟨[], []⟩)) :=
  ⟨by decide, short_phrase_rejected ⟨[], []⟩ [97, 98] [5] [] [] [] 0 (by decide)⟩

/-- C10.  NoteService.hashPhrase and FileService.hashPhrase compute the
same function: the lowercase hex encoding (drawn from the digit table
0-9, a-f) of the SHA-256 digest of the phrase, a 64-character string,
so a note and its attached encrypted file resolve to the identical
phrase_hash lookup token. -/
theorem hashPhrase_agreement :
    ∀ p : ByteSeq, NoteService.hashPhrase p = FileService.hashPhrase p ∧
      NoteService.hashPhrase p = hexEncode (Sha256.sha256Bytes p) ∧
      (NoteService.hashPhrase p).length = 64 ∧
      ∀ c ∈ NoteService.hashPhrase p, c ∈ hextable := by
  intro p
  refine ⟨rfl, rfl, ?_, ?_⟩
  · unfold NoteService.hashPhrase
    rw [hexEncode_length, Sha256.sha256Bytes_length]
  · unfold NoteService.hashPhrase
    exact hexEncode_mem_hextable _
